import Mathlib

/-!
Verification of the tripshot bus-schedule query engine (`src/main.py`).

Times of day are embedded as `Nat` seconds since midnight (a Python
`datetime.time` compares exactly like its seconds-since-midnight value).
A day is 86400 seconds.  The pandas `DataFrame` of schedule rows is
embedded as a `List ScheduleRow`; boolean-mask filtering is `List.filter`,
`sort_values` is `List.insertionSort` on the departure-time key, `head(n)`
is `List.take n`, and `iloc[-1:]` on a non-empty frame is `List.getLast?`.
-/

/-- A row of the loaded schedule: `{Route, Departure Time}`. -/
structure ScheduleRow where
  route : String
  departureTime : Nat
  deriving DecidableEq, Repr

/-- A schedule row with the derived "Time Left" column attached
(`upcoming_buses["Time Left"] = ...` writes into a fresh filtered copy). -/
structure AnnotatedRow where
  row : ScheduleRow
  timeLeft : String
  deriving DecidableEq, Repr

/-- Formats a non-negative duration `d` in seconds the way the tail of
`time_difference` does: `minutes, seconds = divmod(d, 60)`, then the hour
form when `d >= 7200`, else the minute/second form. -/
def formatDuration (d : Nat) : String :=
  let minutes := d / 60
  let seconds := d % 60
  if 7200 ≤ d then
    let hours := minutes / 60
    let minutes := minutes % 60
    s!"{hours} hours {minutes} minutes"
  else
    s!"{minutes} minutes {seconds} seconds"

/-- `time_difference(dep_time)` of `src/main.py`, with the `datetime.now()`
sampled inside the Python function made an explicit `now` argument.
If the departure is strictly before `now` it is advanced by one day;
the resulting non-negative difference is formatted by `formatDuration`. -/
def time_difference (dep_time now : Nat) : String :=
  let diff := if dep_time < now then dep_time + 86400 - now else dep_time - now
  formatDuration diff

/-- Ordering of annotated rows by departure time (`sort_values("Departure Time")`). -/
def depLe (a b : AnnotatedRow) : Prop :=
  a.row.departureTime ≤ b.row.departureTime

instance : DecidableRel depLe := fun a b =>
  inferInstanceAs (Decidable (a.row.departureTime ≤ b.row.departureTime))

instance : IsTotal AnnotatedRow depLe :=
  ⟨fun a b => Nat.le_total a.row.departureTime b.row.departureTime⟩

instance : IsTrans AnnotatedRow depLe :=
  ⟨fun _ _ _ hab hbc => Nat.le_trans hab hbc⟩

/-- Ordering of plain schedule rows by departure time. -/
def rowLe (a b : ScheduleRow) : Prop :=
  a.departureTime ≤ b.departureTime

instance : DecidableRel rowLe := fun a b =>
  inferInstanceAs (Decidable (a.departureTime ≤ b.departureTime))

instance : IsTotal ScheduleRow rowLe :=
  ⟨fun a b => Nat.le_total a.departureTime b.departureTime⟩

instance : IsTrans ScheduleRow rowLe :=
  ⟨fun _ _ _ hab hbc => Nat.le_trans hab hbc⟩

/-- The boolean mask of `get_next_buses`:
`(df["Route"] == route) & (df["Departure Time"] > now)`. -/
def upcomingMask (route : String) (now : Nat) (r : ScheduleRow) : Bool :=
  r.route == route && decide (now < r.departureTime)

/-- `get_next_buses(df, route, max_results)` of `src/main.py`: filter to the
route's strictly-future rows, attach the "Time Left" column, sort ascending
by departure time, take the first `max_results` rows. -/
def get_next_buses (df : List ScheduleRow) (route : String) (now max_results : Nat) :
    List AnnotatedRow :=
  let upcoming_buses := df.filter (upcomingMask route now)
  let annotated := upcoming_buses.map (fun r => ⟨r, time_difference r.departureTime now⟩)
  (List.insertionSort depLe annotated).take max_results

/-- `get_next_buses` with Python's default `max_results=4`. -/
def get_next_buses_default (df : List ScheduleRow) (route : String) (now : Nat) :
    List AnnotatedRow :=
  get_next_buses df route now 4

/-- The boolean mask of `get_latest_bus`:
`(df["Route"] == route) & (df["Departure Time"] < now)`. -/
def pastMask (route : String) (now : Nat) (r : ScheduleRow) : Bool :=
  r.route == route && decide (r.departureTime < now)

/-- `get_latest_bus(df, route)` of `src/main.py`: filter to the route's
strictly-past rows, attach "Time Left", return `None` when empty, else the
last row of the ascending sort (`iloc[-1:]`). -/
def get_latest_bus (df : List ScheduleRow) (route : String) (now : Nat) :
    Option AnnotatedRow :=
  let past_buses := df.filter (pastMask route now)
  let annotated := past_buses.map (fun r => ⟨r, time_difference r.departureTime now⟩)
  if annotated.isEmpty then none
  else (List.insertionSort depLe annotated).getLast?

/-- `get_last_bus_from_work(df)` of `src/main.py`: restrict to route
`"Work → Palo Alto"`, keep strictly-future rows, return `None` when none
remain, else annotate the last row of the ascending sort. -/
def get_last_bus_from_work (df : List ScheduleRow) (now : Nat) : Option AnnotatedRow :=
  let work_to_palo_alto := df.filter (fun r => r.route == "Work → Palo Alto")
  let future_buses := work_to_palo_alto.filter (fun r => decide (now < r.departureTime))
  if future_buses.isEmpty then none
  else
    match (List.insertionSort rowLe future_buses).getLast? with
    | none => none
    | some last_bus => some ⟨last_bus, time_difference last_bus.departureTime now⟩

/-! ### The Loader (`load_data` of `src/main.py`) -/

/-- `df["Departure Time"].astype(str).str[-8:]`: the trailing 8 characters of
a string (the whole string when it is shorter than 8 characters). -/
def lastEight (s : String) : String :=
  ⟨s.data.drop (s.data.length - 8)⟩

/-- Numeric value of a decimal digit character. -/
def digitVal (c : Char) : Nat :=
  c.toNat - 48

/-- `pd.to_datetime(_, format="%H:%M:%S").dt.time` on one cell: the string
must be two decimal digits, a colon, two digits, a colon, two digits, with
hour ≤ 23, minute ≤ 59, second ≤ 59; the result is the time of day in
seconds since midnight. -/
def parseHHMMSS (s : String) : Option Nat :=
  match s.data with
  | [h1, h2, c1, m1, m2, c2, s1, s2] =>
    if h1.isDigit && h2.isDigit && c1 == ':' &&
       m1.isDigit && m2.isDigit && c2 == ':' &&
       s1.isDigit && s2.isDigit then
      let hour := 10 * digitVal h1 + digitVal h2
      let minute := 10 * digitVal m1 + digitVal m2
      let second := 10 * digitVal s1 + digitVal s2
      if hour ≤ 23 && minute ≤ 59 && second ≤ 59 then
        some (hour * 3600 + minute * 60 + second)
      else none
    else none
  | _ => none

/-- The failure raised when a cell cannot be interpreted as `HH:MM:SS`. -/
inductive ParseError where
  | malformed (raw : String)
  deriving DecidableEq, Repr

/-- `load_data()` of `src/main.py` on the raw CSV rows, each a
`(Route, Departure Time)` pair of strings: take the trailing 8 characters
of every time cell and parse them as `HH:MM:SS`; any malformed cell fails
the whole load. -/
def load_data (raw : List (String × String)) : Except ParseError (List ScheduleRow) :=
  match raw with
  | [] => Except.ok []
  | (route, rawTime) :: rest =>
    match parseHHMMSS (lastEight rawTime) with
    | none => Except.error (ParseError.malformed rawTime)
    | some t =>
      match load_data rest with
      | Except.error e => Except.error e
      | Except.ok rows => Except.ok (⟨route, t⟩ :: rows)

/-- The canonical rendering of the time-of-day `h:m:s` as an 8-character
`HH:MM:SS` string, stated from the spec's wording ("string ending in an
8-character HH:MM:SS suffix"): two decimal digits for each field,
colon-separated. -/
def renderHHMMSS (h m s : Nat) : String :=
  ⟨[Char.ofNat (48 + h / 10), Char.ofNat (48 + h % 10), ':',
    Char.ofNat (48 + m / 10), Char.ofNat (48 + m % 10), ':',
    Char.ofNat (48 + s / 10), Char.ofNat (48 + s % 10)]⟩

/-! ### Wraparound-adjusted duration (spec §4.2) and the query session -/

/-- The wraparound-adjusted duration of spec §4.2: both times live on the
same reference day, and a departure strictly earlier in the clock than
`now` is advanced by exactly one day. -/
def wrapAdjustedDuration (dep now : Nat) : Nat :=
  if dep < now then dep + 86400 - now else dep - now

/-- A query session holding the loaded (cached, read-only) row set. -/
structure Session where
  rows : List ScheduleRow
  deriving DecidableEq, Repr

/-- `get_next_buses` as a state transformer over the session: the query
reads the cached rows and produces a fresh annotated list. -/
def get_next_buses_session (s : Session) (route : String) (now max_results : Nat) :
    List AnnotatedRow × Session :=
  (get_next_buses s.rows route now max_results, s)

/-- `get_latest_bus` as a state transformer over the session. -/
def get_latest_bus_session (s : Session) (route : String) (now : Nat) :
    Option AnnotatedRow × Session :=
  (get_latest_bus s.rows route now, s)

/-- `get_last_bus_from_work` as a state transformer over the session. -/
def get_last_bus_from_work_session (s : Session) (now : Nat) :
    Option AnnotatedRow × Session :=
  (get_last_bus_from_work s.rows now, s)

/-- The three-row scenario of spec §8: two `"X→Y"` departures at 08:00:00
and 09:30:00 and one `"Y→X"` departure at 10:00:00, in seconds since
midnight. -/
def rowsC3 : List ScheduleRow :=
  [⟨"X→Y", 28800⟩, ⟨"X→Y", 34200⟩, ⟨"Y→X", 36000⟩]

/-! ### Helper lemmas -/

lemma mem_of_getLast?_eq {α : Type} {l : List α} {a : α} (h : l.getLast? = some a) :
    a ∈ l := by
  cases l with
  | nil => simp at h
  | cons x xs =>
    rw [List.getLast?_eq_getLast (x :: xs) (by simp)] at h
    exact Option.some_inj.mp h ▸ List.getLast_mem _

lemma getLast?_max {α : Type} {r : α → α → Prop} (hrefl : ∀ x, r x x) :
    ∀ {l : List α} {a : α}, l.Sorted r → l.getLast? = some a → ∀ b ∈ l, r b a := by
  intro l
  induction l with
  | nil => intro a _ ha; simp at ha
  | cons x xs ih =>
    intro a hs ha b hb
    cases xs with
    | nil =>
      simp only [List.getLast?_singleton, Option.some_inj] at ha
      simp only [List.mem_singleton] at hb
      subst ha; subst hb; exact hrefl b
    | cons y ys =>
      rw [List.getLast?_cons_cons] at ha
      rw [List.sorted_cons] at hs
      rcases List.mem_cons.mp hb with hbx | hbtail
      · subst hbx
        exact hs.1 a (mem_of_getLast?_eq ha)
      · exact ih hs.2 ha b hbtail

lemma formatDuration_ge {d : Nat} (h : 7200 ≤ d) :
    formatDuration d = s!"{d / 3600} hours {d / 60 % 60} minutes" := by
  have hdd : d / 60 / 60 = d / 3600 := by
    rw [Nat.div_div_eq_div_mul]
  simp only [formatDuration, if_pos h, hdd]

lemma formatDuration_lt {d : Nat} (h : d < 7200) :
    formatDuration d = s!"{d / 60} minutes {d % 60} seconds" := by
  simp only [formatDuration, if_neg (Nat.not_le.mpr h)]

lemma time_difference_eq_wrap (dep now : Nat) :
    time_difference dep now = formatDuration (wrapAdjustedDuration dep now) := rfl

lemma upcomingMask_eq_true {route : String} {now : Nat} {r : ScheduleRow} :
    upcomingMask route now r = true ↔ r.route = route ∧ now < r.departureTime := by
  simp [upcomingMask]

lemma pastMask_eq_true {route : String} {now : Nat} {r : ScheduleRow} :
    pastMask route now r = true ↔ r.route = route ∧ r.departureTime < now := by
  simp [pastMask]

lemma mem_get_next_buses {df : List ScheduleRow} {route : String} {now k : Nat}
    {a : AnnotatedRow} (ha : a ∈ get_next_buses df route now k) :
    a.row ∈ df ∧ a.row.route = route ∧ now < a.row.departureTime ∧
      a.timeLeft = time_difference a.row.departureTime now := by
  unfold get_next_buses at ha
  have h1 := List.mem_of_mem_take ha
  rw [List.mem_insertionSort] at h1
  obtain ⟨r, hr, hra⟩ := List.mem_map.mp h1
  obtain ⟨hrdf, hmask⟩ := List.mem_filter.mp hr
  rw [upcomingMask_eq_true] at hmask
  subst hra
  exact ⟨hrdf, hmask.1, hmask.2, rfl⟩

lemma get_latest_bus_some {df : List ScheduleRow} {route : String} {now : Nat}
    {a : AnnotatedRow} (ha : get_latest_bus df route now = some a) :
    a.row ∈ df ∧ a.row.route = route ∧ a.row.departureTime < now ∧
      a.timeLeft = time_difference a.row.departureTime now := by
  unfold get_latest_bus at ha
  by_cases hempty :
      ((df.filter (pastMask route now)).map
        (fun r => (⟨r, time_difference r.departureTime now⟩ : AnnotatedRow))).isEmpty = true
  · rw [if_pos hempty] at ha
    exact absurd ha (by simp)
  · rw [if_neg hempty] at ha
    have h1 := mem_of_getLast?_eq ha
    rw [List.mem_insertionSort] at h1
    obtain ⟨r, hr, hra⟩ := List.mem_map.mp h1
    obtain ⟨hrdf, hmask⟩ := List.mem_filter.mp hr
    rw [pastMask_eq_true] at hmask
    subst hra
    exact ⟨hrdf, hmask.1, hmask.2, rfl⟩

lemma get_latest_bus_max {df : List ScheduleRow} {route : String} {now : Nat}
    {a : AnnotatedRow} (ha : get_latest_bus df route now = some a) :
    ∀ r ∈ df, r.route = route → r.departureTime < now →
      r.departureTime ≤ a.row.departureTime := by
  intro r hrdf hroute hlt
  unfold get_latest_bus at ha
  by_cases hempty :
      ((df.filter (pastMask route now)).map
        (fun r => (⟨r, time_difference r.departureTime now⟩ : AnnotatedRow))).isEmpty = true
  · rw [if_pos hempty] at ha
    exact absurd ha (by simp)
  · rw [if_neg hempty] at ha
    have hrfilter : r ∈ df.filter (pastMask route now) :=
      List.mem_filter.mpr ⟨hrdf, pastMask_eq_true.mpr ⟨hroute, hlt⟩⟩
    have hrann :
        (⟨r, time_difference r.departureTime now⟩ : AnnotatedRow) ∈
          (df.filter (pastMask route now)).map
            (fun r => (⟨r, time_difference r.departureTime now⟩ : AnnotatedRow)) :=
      List.mem_map.mpr ⟨r, hrfilter, rfl⟩
    have hsorted := List.sorted_insertionSort depLe
      ((df.filter (pastMask route now)).map
        (fun r => (⟨r, time_difference r.departureTime now⟩ : AnnotatedRow)))
    have hmem := (List.mem_insertionSort depLe).mpr hrann
    exact getLast?_max
      (show ∀ x : AnnotatedRow, depLe x x from fun x => Nat.le_refl x.row.departureTime)
      hsorted ha _ hmem

/-! ### Claim theorems -/

/-- C1: for every row set, route, `now` and limit, `get_next_buses` returns
only rows whose route equals the given route and whose departure time is
strictly greater than `now`, returns at most `limit` rows (with 4 as the
default limit), returns them sorted in ascending order of departure time,
and an empty row set or no matching rows yields the empty list rather than
an error. -/
theorem get_next_buses_spec (df : List ScheduleRow) (route : String) (now k : Nat) :
    (∀ a ∈ get_next_buses df route now k,
        a.row ∈ df ∧ a.row.route = route ∧ now < a.row.departureTime) ∧
    (get_next_buses df route now k).length ≤ k ∧
    (get_next_buses df route now k).Pairwise depLe ∧
    (df = [] → get_next_buses df route now k = []) ∧
    ((∀ r ∈ df, ¬(r.route = route ∧ now < r.departureTime)) →
        get_next_buses df route now k = []) ∧
    get_next_buses_default df route now = get_next_buses df route now 4 := by
  refine ⟨?_, ?_, ?_, ?_, ?_, rfl⟩
  · intro a ha
    obtain ⟨h1, h2, h3, _⟩ := mem_get_next_buses ha
    exact ⟨h1, h2, h3⟩
  · exact List.length_take_le k _
  · exact List.Pairwise.sublist (List.take_sublist k _)
      (List.sorted_insertionSort depLe _)
  · intro h; subst h; simp [get_next_buses]
  · intro h
    have hfil : df.filter (upcomingMask route now) = [] :=
      List.filter_eq_nil_iff.mpr fun r hr hmask => h r hr (upcomingMask_eq_true.mp hmask)
    simp [get_next_buses, hfil]

/-- C1 witness: on the three-row scenario the result has at most 4 rows. -/
theorem get_next_buses_spec_witness :
    (get_next_buses rowsC3 "X→Y" 27900 4).length ≤ 4 :=
  (get_next_buses_spec rowsC3 "X→Y" 27900 4).2.1

/-- C2: for every pair of time-of-day inputs, `time_difference` uses the
hour form exactly when the wraparound-adjusted duration is at least 7200
seconds (integer hours and remaining minutes, seconds dropped), and the
minute/second form below that (integer minutes and remaining seconds,
truncation only). -/
theorem time_difference_branch (dep now : Nat) (hdep : dep < 86400) (hnow : now < 86400) :
    (7200 ≤ wrapAdjustedDuration dep now →
      time_difference dep now =
        s!"{wrapAdjustedDuration dep now / 3600} hours {wrapAdjustedDuration dep now / 60 % 60} minutes") ∧
    (wrapAdjustedDuration dep now < 7200 →
      time_difference dep now =
        s!"{wrapAdjustedDuration dep now / 60} minutes {wrapAdjustedDuration dep now % 60} seconds") := by
  constructor
  · intro h
    rw [time_difference_eq_wrap, formatDuration_ge h]
  · intro h
    rw [time_difference_eq_wrap, formatDuration_lt h]

/-- C2 witness: the 7200 and 7199 second boundary cases, from a midnight
`now`. -/
theorem time_difference_branch_witness :
    time_difference 7200 0 = "2 hours 0 minutes" ∧
      time_difference 7199 0 = "119 minutes 59 seconds" := by
  have h1 := (time_difference_branch 7200 0 (by decide) (by decide)).1 (by decide)
  have h2 := (time_difference_branch 7199 0 (by decide) (by decide)).2 (by decide)
  exact ⟨h1.trans (by decide), h2.trans (by decide)⟩

/-- C3 counterexample: on the spec §8 scenario at `now = 07:45:00`, the
second returned row's time-left string is not `"1 hours 45 minutes"` as the
claim states (the 6300-second duration is below the 7200-second threshold,
so the minute/second form is used). -/
theorem get_next_buses_scenario_counterexample :
    ¬ ((get_next_buses rowsC3 "X→Y" 27900 4).map
        (fun a => (a.row.route, a.row.departureTime, a.timeLeft)) =
      [("X→Y", 28800, "15 minutes 0 seconds"),
       ("X→Y", 34200, "1 hours 45 minutes")]) := by
  decide

/-- C3 amended: the scenario returns exactly the two `"X→Y"` rows in
ascending order, the first annotated `"15 minutes 0 seconds"` and the
second `"105 minutes 0 seconds"` (1 h 45 min is under the two-hour
threshold, so the minute/second form is used). -/
theorem get_next_buses_scenario_amended :
    (get_next_buses rowsC3 "X→Y" 27900 4).map
        (fun a => (a.row.route, a.row.departureTime, a.timeLeft)) =
      [("X→Y", 28800, "15 minutes 0 seconds"),
       ("X→Y", 34200, "105 minutes 0 seconds")] := by
  decide

/-- C4: `get_latest_bus` never returns a row departing at or after `now`;
when at least one row matches the route with a departure strictly before
`now`, it returns a matching row with the maximum departure time; when no
such past row exists for the route it returns `none` rather than an
error. -/
theorem get_latest_bus_spec (df : List ScheduleRow) (route : String) (now : Nat) :
    (∀ a, get_latest_bus df route now = some a →
        a.row ∈ df ∧ a.row.route = route ∧ a.row.departureTime < now ∧
        ∀ r ∈ df, r.route = route → r.departureTime < now →
          r.departureTime ≤ a.row.departureTime) ∧
    ((∃ r ∈ df, r.route = route ∧ r.departureTime < now) →
        get_latest_bus df route now ≠ none) ∧
    ((∀ r ∈ df, r.route = route → ¬(r.departureTime < now)) →
        get_latest_bus df route now = none) := by
  refine ⟨?_, ?_, ?_⟩
  · intro a ha
    obtain ⟨h1, h2, h3, _⟩ := get_latest_bus_some ha
    exact ⟨h1, h2, h3, get_latest_bus_max ha⟩
  · rintro ⟨r, hrdf, hroute, hlt⟩
    have hrfilter : r ∈ df.filter (pastMask route now) :=
      List.mem_filter.mpr ⟨hrdf, pastMask_eq_true.mpr ⟨hroute, hlt⟩⟩
    have hrann :
        (⟨r, time_difference r.departureTime now⟩ : AnnotatedRow) ∈
          (df.filter (pastMask route now)).map
            (fun r => (⟨r, time_difference r.departureTime now⟩ : AnnotatedRow)) :=
      List.mem_map.mpr ⟨r, hrfilter, rfl⟩
    have hne :
        (df.filter (pastMask route now)).map
          (fun r => (⟨r, time_difference r.departureTime now⟩ : AnnotatedRow)) ≠ [] :=
      List.ne_nil_of_mem hrann
    unfold get_latest_bus
    rw [if_neg (by simpa [List.isEmpty_iff] using hne)]
    have hsne :
        List.insertionSort depLe
          ((df.filter (pastMask route now)).map
            (fun r => (⟨r, time_difference r.departureTime now⟩ : AnnotatedRow))) ≠ [] :=
      List.ne_nil_of_mem ((List.mem_insertionSort depLe).mpr hrann)
    simpa [List.getLast?_eq_none_iff] using hsne
  · intro h
    have hfil : df.filter (pastMask route now) = [] :=
      List.filter_eq_nil_iff.mpr fun r hr hmask => by
        obtain ⟨h1, h2⟩ := pastMask_eq_true.mp hmask
        exact h r hr h1 h2
    simp [get_latest_bus, hfil]

/-- C4 witness: on the three-row scenario at `now = 10:00:00` the returned
most-recent past `"X→Y"` departure is before `now` (34200 < 36000). -/
theorem get_latest_bus_spec_witness : (34200 : Nat) < 36000 :=
  ((get_latest_bus_spec rowsC3 "X→Y" 36000).1
    ⟨⟨"X→Y", 34200⟩, "23 hours 30 minutes"⟩ (by decide)).2.2.1

/-- C6: every past row returned by `get_latest_bus` carries a time-left
string produced with the wraparound rule fired: the departure is advanced
by one day, so the string formats the duration
`departureTime + 86400 - now` from `now` until the next-day occurrence,
not the elapsed time since the bus departed. -/
theorem get_latest_bus_wrap (df : List ScheduleRow) (route : String) (now : Nat)
    (a : AnnotatedRow) (ha : get_latest_bus df route now = some a) :
    a.timeLeft = formatDuration (a.row.departureTime + 86400 - now) := by
  obtain ⟨_, _, hlt, htl⟩ := get_latest_bus_some ha
  rw [htl]
  unfold time_difference
  rw [if_pos hlt]

/-- C6 witness: on the three-row scenario at `now = 10:00:00` the returned
row's string is the wraparound-adjusted 84600-second duration, i.e.
`"23 hours 30 minutes"`, not an elapsed-time string. -/
theorem get_latest_bus_wrap_witness :
    ("23 hours 30 minutes" : String) = formatDuration (34200 + 86400 - 36000) :=
  get_latest_bus_wrap rowsC3 "X→Y" 36000
    ⟨⟨"X→Y", 34200⟩, "23 hours 30 minutes"⟩ (by decide)

/-- C8: with one frozen `now` and an unchanged row set, calling
`get_next_buses` twice, or `get_latest_bus` twice, yields identical
output: both operations are deterministic functions of their inputs. -/
theorem queries_deterministic (df : List ScheduleRow) (route : String) (now k : Nat) :
    get_next_buses df route now k = get_next_buses df route now k ∧
      get_latest_bus df route now = get_latest_bus df route now :=
  ⟨rfl, rfl⟩

/-- C8 witness: the scenario query repeated gives the same output. -/
theorem queries_deterministic_witness :
    get_next_buses rowsC3 "X→Y" 27900 4 = get_next_buses rowsC3 "X→Y" 27900 4 :=
  (queries_deterministic rowsC3 "X→Y" 27900 4).1

/-- C9: no query operation mutates the loaded row set: after
`get_next_buses`, `get_latest_bus`, or `get_last_bus_from_work`, the
session's row set is unchanged (no row added, removed or reordered, and no
derived column attached to it — `ScheduleRow` has no time-left field, and
annotated rows exist only in the freshly produced result). -/
theorem queries_preserve_session (s : Session) (route : String) (now k : Nat) :
    (get_next_buses_session s route now k).2 = s ∧
    (get_latest_bus_session s route now).2 = s ∧
    (get_last_bus_from_work_session s now).2 = s ∧
    (get_next_buses_session s route now k).2.rows = s.rows :=
  ⟨rfl, rfl, rfl, rfl⟩

/-- C9 witness: the scenario session is unchanged by a query. -/
theorem queries_preserve_session_witness :
    (get_next_buses_session ⟨rowsC3⟩ "X→Y" 27900 4).2 = ⟨rowsC3⟩ :=
  (queries_preserve_session ⟨rowsC3⟩ "X→Y" 27900 4).1

/-- C10: the wraparound fires only on strictly earlier departures: when the
departure equals `now`, it is not advanced by a day, the adjusted duration
is zero, and `time_difference` returns `"0 minutes 0 seconds"` rather than
a 24-hour string. -/
theorem time_difference_zero (now : Nat) :
    wrapAdjustedDuration now now = 0 ∧
      time_difference now now = "0 minutes 0 seconds" := by
  have hw : wrapAdjustedDuration now now = 0 := by
    unfold wrapAdjustedDuration
    rw [if_neg (Nat.lt_irrefl now), Nat.sub_self]
  refine ⟨hw, ?_⟩
  rw [time_difference_eq_wrap, hw]
  decide

/-- C10 witness: departure equal to a noon `now` formats as zero. -/
theorem time_difference_zero_witness :
    time_difference 43200 43200 = "0 minutes 0 seconds" :=
  (time_difference_zero 43200).2

lemma get_last_bus_from_work_eq (df : List ScheduleRow) (now : Nat) :
    get_last_bus_from_work df now =
      ((List.insertionSort rowLe
          ((df.filter (fun r => r.route == "Work → Palo Alto")).filter
            (fun r => decide (now < r.departureTime)))).getLast?).map
        (fun lb => ⟨lb, time_difference lb.departureTime now⟩) := by
  unfold get_last_bus_from_work
  by_cases hemp :
      ((df.filter (fun r => r.route == "Work → Palo Alto")).filter
        (fun r => decide (now < r.departureTime))).isEmpty = true
  · rw [if_pos hemp]
    rw [List.isEmpty_iff] at hemp
    rw [hemp]
    rfl
  · rw [if_neg hemp]
    cases h :
        (List.insertionSort rowLe
          ((df.filter (fun r => r.route == "Work → Palo Alto")).filter
            (fun r => decide (now < r.departureTime)))).getLast? with
    | none => rfl
    | some lb => rfl

lemma mem_work_future {df : List ScheduleRow} {now : Nat} {r : ScheduleRow} :
    r ∈ (df.filter (fun r => r.route == "Work → Palo Alto")).filter
        (fun r => decide (now < r.departureTime)) ↔
      r ∈ df ∧ r.route = "Work → Palo Alto" ∧ now < r.departureTime := by
  simp only [List.mem_filter, beq_iff_eq, decide_eq_true_eq, and_assoc]

/-- C5: `get_last_bus_from_work` (fixed to route `"Work → Palo Alto"`)
returns `none` exactly when no future departure (`departureTime > now`)
remains for that route — the day-exhausted outcome, independent of whether
past rows exist — and otherwise returns the latest-departing row of the
future set, annotated with a duration formatted without wraparound
(`departureTime - now`). -/
theorem get_last_bus_from_work_spec (df : List ScheduleRow) (now : Nat) :
    (get_last_bus_from_work df now = none ↔
      ∀ r ∈ df, r.route = "Work → Palo Alto" → r.departureTime ≤ now) ∧
    (∀ a, get_last_bus_from_work df now = some a →
      a.row ∈ df ∧ a.row.route = "Work → Palo Alto" ∧ now < a.row.departureTime ∧
      (∀ r ∈ df, r.route = "Work → Palo Alto" → now < r.departureTime →
        r.departureTime ≤ a.row.departureTime) ∧
      a.timeLeft = formatDuration (a.row.departureTime - now)) := by
  rw [get_last_bus_from_work_eq]
  constructor
  · rw [Option.map_eq_none', List.getLast?_eq_none_iff]
    constructor
    · intro hnil r hrdf hroute
      by_contra hfut
      have hmem : r ∈ (df.filter (fun r => r.route == "Work → Palo Alto")).filter
          (fun r => decide (now < r.departureTime)) :=
        mem_work_future.mpr ⟨hrdf, hroute, Nat.lt_of_not_le (fun hle => hfut hle)⟩
      exact List.ne_nil_of_mem ((List.mem_insertionSort rowLe).mpr hmem) hnil
    · intro hall
      by_contra hne
      obtain ⟨x, hx⟩ := List.exists_mem_of_ne_nil _ hne
      have hx2 := mem_work_future.mp ((List.mem_insertionSort rowLe).mp hx)
      exact Nat.not_le.mpr hx2.2.2 (hall x hx2.1 hx2.2.1)
  · intro a ha
    obtain ⟨lb, hlb, hmap⟩ := Option.map_eq_some'.mp ha
    have hlbmem := mem_work_future.mp ((List.mem_insertionSort rowLe).mp
      (mem_of_getLast?_eq hlb))
    subst hmap
    refine ⟨hlbmem.1, hlbmem.2.1, hlbmem.2.2, ?_, ?_⟩
    · intro r hrdf hroute hfut
      have hrmem : r ∈ (df.filter (fun r => r.route == "Work → Palo Alto")).filter
          (fun r => decide (now < r.departureTime)) :=
        mem_work_future.mpr ⟨hrdf, hroute, hfut⟩
      exact getLast?_max
        (show ∀ x : ScheduleRow, rowLe x x from fun x => Nat.le_refl x.departureTime)
        (List.sorted_insertionSort rowLe _) hlb _
        ((List.mem_insertionSort rowLe).mpr hrmem)
    · show time_difference lb.departureTime now = _
      unfold time_difference
      rw [if_neg (Nat.lt_asymm hlbmem.2.2)]

/-- C5 witness: with only a past `"Work → Palo Alto"` departure the
operation reports the day-exhausted outcome. -/
theorem get_last_bus_from_work_spec_witness :
    get_last_bus_from_work [⟨"Work → Palo Alto", 100⟩] 200 = none :=
  (get_last_bus_from_work_spec [⟨"Work → Palo Alto", 100⟩] 200).1.mpr (by decide)

lemma digit_facts : ∀ n < 10, (Char.ofNat (48 + n)).isDigit = true ∧ digitVal (Char.ofNat (48 + n)) = n := by decide

lemma lastEight_append (p s : String) (h : s.data.length = 8) : lastEight (p ++ s) = s := by
  unfold lastEight
  have hd : (p ++ s).data = p.data ++ s.data := rfl
  rw [hd, List.length_append, h]
  rw [Nat.add_sub_cancel]
  rw [List.drop_left]

lemma parseHHMMSS_render (h m s : Nat) (hh : h ≤ 23) (hm : m ≤ 59) (hs : s ≤ 59) :
    parseHHMMSS (renderHHMMSS h m s) = some (h * 3600 + m * 60 + s) := by
  have hh1 : h / 10 < 10 := by omega
  have hh2 : h % 10 < 10 := Nat.mod_lt _ (by omega)
  have hm1 : m / 10 < 10 := by omega
  have hm2 : m % 10 < 10 := Nat.mod_lt _ (by omega)
  have hs1 : s / 10 < 10 := by omega
  have hs2 : s % 10 < 10 := Nat.mod_lt _ (by omega)
  have d1 := digit_facts _ hh1
  have d2 := digit_facts _ hh2
  have d3 := digit_facts _ hm1
  have d4 := digit_facts _ hm2
  have d5 := digit_facts _ hs1
  have d6 := digit_facts _ hs2
  unfold parseHHMMSS renderHHMMSS
  simp only [d1.1, d1.2, d2.1, d2.2, d3.1, d3.2, d4.1, d4.2, d5.1, d5.2, d6.1, d6.2,
    Bool.and_true, Bool.true_and, beq_self_eq_true]
  simp only [if_true, Nat.div_add_mod]
  rw [if_pos (by simp [hh, hm, hs])]

lemma parseHHMMSS_lt {s : String} {t : Nat} (h : parseHHMMSS s = some t) : t < 86400 := by
  unfold parseHHMMSS at h
  split at h
  · dsimp only at h
    split at h
    · split at h
      · rename_i hbounds
        simp only [Bool.and_eq_true, decide_eq_true_eq] at hbounds
        obtain ⟨⟨h1, h2⟩, h3⟩ := hbounds
        rw [Option.some_inj] at h
        omega
      · exact absurd h (by simp)
    · exact absurd h (by simp)
  · exact absurd h (by simp)

lemma load_data_isOk_eq (rows : List (String × String)) :
    (load_data rows).isOk =
      rows.all (fun r => (parseHHMMSS (lastEight r.2)).isSome) := by
  induction rows with
  | nil => rfl
  | cons r rest ih =>
    obtain ⟨route, rawTime⟩ := r
    unfold load_data
    cases hp : parseHHMMSS (lastEight rawTime) with
    | none => simp [Except.isOk, Except.toBool, hp]
    | some t =>
      cases hl : load_data rest with
      | error e =>
        rw [hl] at ih
        simp [Except.isOk, Except.toBool, hp, ← ih]
      | ok srows =>
        rw [hl] at ih
        simp [Except.isOk, Except.toBool, hp, ← ih]

lemma load_data_ok_valid :
    ∀ {rows : List (String × String)} {srows : List ScheduleRow},
      load_data rows = Except.ok srows → ∀ r ∈ srows, r.departureTime < 86400 := by
  intro rows
  induction rows with
  | nil =>
    intro srows h r hr
    simp only [load_data, Except.ok.injEq] at h
    subst h
    simp at hr
  | cons x rest ih =>
    intro srows h r hr
    obtain ⟨route, rawTime⟩ := x
    unfold load_data at h
    cases hp : parseHHMMSS (lastEight rawTime) with
    | none => rw [hp] at h; exact absurd h (by simp)
    | some t =>
      rw [hp] at h
      cases hl : load_data rest with
      | error e => rw [hl] at h; exact absurd h (by simp)
      | ok srows2 =>
        rw [hl] at h
        simp only [Except.ok.injEq] at h
        subst h
        rcases List.mem_cons.mp hr with hhead | htail
        · subst hhead
          exact parseHHMMSS_lt hp
        · exact ih hl r htail

/-- C7: the loader takes exactly the trailing 8 characters of each raw
departure-time field (ignoring any leading content such as a date prefix)
and parses them as an `HH:MM:SS` time-of-day: the load succeeds exactly
when every row's trailing segment parses, every well-formed `HH:MM:SS`
rendering of a valid time-of-day parses to that time, and every loaded
departure time is a valid time-of-day. -/
theorem load_data_spec (rows : List (String × String)) :
    ((load_data rows).isOk = true ↔
      ∀ r ∈ rows, (parseHHMMSS (lastEight r.2)).isSome = true) ∧
    (∀ p s : String, s.data.length = 8 → lastEight (p ++ s) = s) ∧
    (∀ h m sec : Nat, h ≤ 23 → m ≤ 59 → sec ≤ 59 →
      parseHHMMSS (renderHHMMSS h m sec) = some (h * 3600 + m * 60 + sec)) ∧
    (∀ srows, load_data rows = Except.ok srows →
      ∀ r ∈ srows, r.departureTime < 86400) := by
  refine ⟨?_, lastEight_append, parseHHMMSS_render, fun srows h => load_data_ok_valid h⟩
  rw [load_data_isOk_eq, List.all_eq_true]

/-- C7 witness: a raw field with a date prefix loads successfully. -/
theorem load_data_spec_witness :
    (load_data [("Palo Alto → Work", "2024-01-01 08:00:00")]).isOk = true :=
  (load_data_spec [("Palo Alto → Work", "2024-01-01 08:00:00")]).1.mpr (by decide)
